import Mathlib

/-!
Shallow embedding of the salien-script-js core (`src/index.js`): the
bounded-retry request layer (`RequestAPI`) and the planet-selection pass
(`setupGame`), together with theorems checking the specification's claims
against these definitions.

Modelling conventions:
- JS strings are Lean `String`s (all characters involved are ASCII, so JS
  UTF-16 units coincide with Lean `Char`s).
- JSON numbers carrying zone metadata (`type`, `difficulty`) are `Int`;
  capture progress fractions are `ℚ`; a possibly-absent numeric field is
  `Option ℚ` (with `none` for JS `undefined`).
- A fallible API attempt is a value of `Option α`: `none` models the
  attempt throwing (network error / non-JSON body), `some r` models a
  successfully decoded, truthy response body.
- The delays the code sleeps are recorded as a list of milliseconds.
-/

namespace Salien

/-! ## The RequestAPI retry loop (src/index.js lines 73-125) -/

/-- How one `RequestAPI` invocation ends:
`ok r` — the while-loop exits with a truthy decoded `response` and the
function returns `response.response`;
`salienException msg` — the loop threw `new SalienScriptException(msg)`
after exhausting the retry budget;
`typeErrorUndefined` — the loop body never ran (`maxRetries = 0`), so the
final `return response.response` dereferences `undefined` and raises an
unclassified JS `TypeError`. -/
inductive ReqOutcome (α : Type) where
  | ok (r : α)
  | salienException (msg : String)
  | typeErrorUndefined
deriving DecidableEq

/-- Observable result of a `RequestAPI` call: its outcome, how many fetch
attempts were made, and the sleeps (`await delay(...)`, in ms) performed
between consecutive attempts, in order. -/
structure ReqResult (α : Type) where
  outcome : ReqOutcome α
  attempts : Nat
  delays : List Nat
deriving DecidableEq

/-- The `while (!response && retries < maxRetries)` loop of `RequestAPI`.
`outcomes i` is the result of the fetch performed when the `retries`
counter equals `i` (`none` = the attempt throws, `some r` = truthy decoded
body). `retries` is the current counter value and `remaining` stands for
`maxRetries - retries`, so the loop guard `retries < maxRetries` is
`remaining > 0`. On a caught exception the counter is incremented; if
`retries < maxRetries` still holds (`rem > 0`) the code sleeps
`defaultDelayMs = 5000` and iterates, otherwise it throws
`SalienScriptException` with the message built from the method name and
the final counter value (`Failed ${method} after ${retries} retries`),
with no sleep after the throw. -/
def requestLoop {α : Type} (method : String) (outcomes : Nat → Option α) :
    (retries remaining : Nat) → ReqResult α
  | _, 0 => ⟨.typeErrorUndefined, 0, []⟩
  | retries, rem + 1 =>
    match outcomes retries with
    | some r => ⟨.ok r, 1, []⟩
    | none =>
      if rem = 0 then
        ⟨.salienException
          ("Failed " ++ method ++ " after " ++ toString (retries + 1) ++ " retries"),
         1, []⟩
      else
        let rest := requestLoop method outcomes (retries + 1) rem
        ⟨rest.outcome, rest.attempts + 1, 5000 :: rest.delays⟩

/-- `SalienScript.RequestAPI(method, params, maxRetries)`: run the retry
loop with the counter starting at `0`. (URL construction is modelled
separately by `buildUrl`; it does not affect the loop.) -/
def RequestAPI {α : Type} (method : String) (outcomes : Nat → Option α)
    (maxRetries : Nat) : ReqResult α :=
  requestLoop method outcomes 0 maxRetries

/-! ## URL construction (src/index.js lines 74-84) -/

/-- JS `url.substring(0, url.length - 1)`: drop the final UTF-16 unit
(here always an ASCII character). -/
def jsDropLast (s : String) : String := ⟨s.data.dropLast⟩

/-- URL building of `RequestAPI`: start from the base plus the method and
the `/v0001` version suffix; when a (JS-truthy) `params` array is given,
append `/?`, then every parameter followed by `&`, then trim the final
character. -/
def buildUrl (method : String) (params : Option (List String)) : String :=
  let url := "https://community.steam-api.com/" ++ method ++ "/v0001"
  match params with
  | none => url
  | some ps => jsDropLast (List.foldl (fun u param => u ++ param ++ "&") (url ++ "/?") ps)

/-- The parameters joined with a single `&` between consecutive elements
and no trailing separator (the spec's "joined with `&`"). -/
def joinAmp : List String → String
  | [] => ""
  | [p] => p
  | p :: q :: rest => p ++ "&" ++ joinAmp (q :: rest)

/-- Every parameter followed by `&`, concatenated: the shape the foldl of
`buildUrl` produces before the final trim. -/
def ampConcat : List String → String
  | [] => ""
  | p :: rest => p ++ "&" ++ ampConcat rest

theorem string_append_assoc (a b c : String) : a ++ b ++ c = a ++ (b ++ c) :=
  String.ext (List.append_assoc a.data b.data c.data)

theorem jsDropLast_amp (s : String) : jsDropLast (s ++ "&") = s :=
  String.ext (List.dropLast_concat ..)

theorem foldl_amp (ps : List String) (u : String) :
    List.foldl (fun a p => a ++ p ++ "&") u ps = u ++ ampConcat ps := by
  induction ps generalizing u with
  | nil => exact String.ext (by simp [ampConcat])
  | cons p rest ih =>
    simp only [List.foldl_cons, ampConcat, ih (u ++ p ++ "&")]
    rw [string_append_assoc, string_append_assoc, string_append_assoc]

theorem ampConcat_eq_joinAmp (ps : List String) (h : ps ≠ []) :
    ampConcat ps = joinAmp ps ++ "&" := by
  induction ps with
  | nil => exact absurd rfl h
  | cons p rest ih =>
    cases rest with
    | nil =>
      show p ++ "&" ++ "" = p ++ "&"
      exact String.ext (by simp)
    | cons q tail =>
      show p ++ "&" ++ ampConcat (q :: tail) = joinAmp (p :: q :: tail) ++ "&"
      rw [ih (by simp), joinAmp]
      exact (string_append_assoc (p ++ "&") (joinAmp (q :: tail)) "&").symm

/-! ## Zones and the per-planet scan (src/index.js lines 223-277) -/

/-- A zone as read from the GetPlanet payload. Only the fields the scan
inspects are modelled: `type` and `difficulty` are JSON numbers, the
capture progress may be absent (`none` = JS `undefined`), `captured` is a
boolean flag. -/
structure Zone where
  type : Int
  difficulty : Int
  capture_progress : Option ℚ
  captured : Bool
deriving DecidableEq

/-- The skip condition of the zone loop:
`(zone.capture_progress && zone.capture_progress > 0.97) || zone.captured`.
JS `&&` first tests truthiness of `capture_progress` (absent or `0` is
falsy), then compares against `0.97`. -/
def zoneSkipCheck (z : Zone) : Bool :=
  (match z.capture_progress with
   | none => false
   | some q => decide (q ≠ 0) && decide (q > (0.97 : ℚ))) || z.captured

/-- The per-planet counters of `setupGame` (src/index.js lines 225-230):
the four difficulty buckets plus the boss flag. The source initialises
`hasBossZone` with `true` (line 230). -/
structure ZoneCounts where
  hardZones : Nat
  mediumZones : Nat
  easyZones : Nat
  unknownZones : Nat
  hasBossZone : Bool
deriving DecidableEq

/-- The four difficulty buckets. -/
inductive Bucket where
  | hard
  | medium
  | easy
  | unknown
deriving DecidableEq

/-- Which bucket the `switch (zone.difficulty)` statement increments:
`3` → hard, `2` → medium, `1` → easy, anything else → unknown. -/
def dBucket (d : Int) : Bucket :=
  if d = 3 then .hard else if d = 2 then .medium else if d = 1 then .easy else .unknown

/-- Read one bucket counter. -/
def bucketCount (c : ZoneCounts) : Bucket → Nat
  | .hard => c.hardZones
  | .medium => c.mediumZones
  | .easy => c.easyZones
  | .unknown => c.unknownZones

/-- Body of `zones.zones.forEach(zone => ...)` (src/index.js lines
236-261): skip near-complete or captured zones; otherwise set the boss
flag when `zone.type === 4` (a type other than `3` or `4` only logs an
anomaly, changing no counter), then increment exactly one difficulty
bucket per the `switch`. -/
def scanZone (c : ZoneCounts) (z : Zone) : ZoneCounts :=
  if zoneSkipCheck z then c
  else
    let c := if z.type = 4 then { c with hasBossZone := true } else c
    if z.difficulty = 3 then { c with hardZones := c.hardZones + 1 }
    else if z.difficulty = 2 then { c with mediumZones := c.mediumZones + 1 }
    else if z.difficulty = 1 then { c with easyZones := c.easyZones + 1 }
    else { c with unknownZones := c.unknownZones + 1 }

/-- Counter initialisation (src/index.js lines 225-230): all buckets `0`,
`let hasBossZone = true`. -/
def initCounts : ZoneCounts := ⟨0, 0, 0, 0, true⟩

/-- The whole zone loop over one planet's zone list. -/
def scanPlanet (zones : List Zone) : ZoneCounts := zones.foldl scanZone initCounts

/-! ## The selection pass setupGame (src/index.js lines 212-288) -/

/-- A planet as returned by GetPlanets. The selection logic observes only
its `id`; the remaining fields (`state.name`, `state.capture_progress`,
`state.current_players`) feed log lines only. -/
structure Planet where
  id : String
deriving DecidableEq

/-- One element of the `planets` array of a GetPlanet response
(`ApiGetPlanet` returns `response.planets[0]`). -/
structure PlanetDetail where
  zones : List Zone
deriving DecidableEq

/-- An unchanged API snapshot for one selection pass: the GetPlanets
payload (`none` = falsy/absent `response.planets`) and, for each planet
id, the `planets` array carried by the k-th GetPlanet fetch for that id
(empty list = transient empty payload, so `planets[0]` is undefined). -/
structure Snapshot where
  planets : Option (List Planet)
  details : String → Nat → List PlanetDetail

/-- The mutable instance state setupGame touches: `this.currentPlanetId`
and `this.knownPlanets`. -/
structure ScriptState where
  currentPlanetId : Option String
  knownPlanets : List String
deriving DecidableEq

/-- State set by the constructor (src/index.js lines 69-70):
`currentPlanetId = null`, `knownPlanets = []`. -/
def initialState : ScriptState := ⟨none, []⟩

/-- How one selection pass ends:
`noPlanets` — `throw new SalienScriptException("Didn't find any planets.")`
before the scan; `selected id` — a planet was chosen and the internal
SalienScriptException broke the loop; `completed` — the forEach finished
with no selection; `stuck id` — the spin-retry on `id`'s detail did not
obtain a planet object within the modelled fuel (the unbounded wait of
the source). -/
inductive SetupOutcome where
  | noPlanets
  | selected (id : String)
  | completed
  | stuck (id : String)
deriving DecidableEq

/-- Observable result of one selection pass: outcome, final instance
state, and the planet ids passed to GetPlanet, one entry per fetch call,
in order. -/
structure SetupResult where
  outcome : SetupOutcome
  currentPlanetId : Option String
  knownPlanets : List String
  fetched : List String
deriving DecidableEq

/-- The `while (!zones) zones = await ApiGetPlanet(planet.id)` spin
(src/index.js lines 232-234). `seq k` is the `planets` array of the k-th
fetch; the loop keeps fetching while `planets[0]` is falsy. Returns the
number of fetches performed together with the first planet object
obtained, or `none` when `fuel` fetches all came back empty (modelling
the loop still spinning). -/
def spinFetch (seq : Nat → List PlanetDetail) : Nat → Nat → Option (Nat × PlanetDetail)
  | _, 0 => none
  | k, fuel + 1 =>
    match (seq k).head? with
    | some d => some (k + 1, d)
    | none => spinFetch seq (k + 1) fuel

/-- The `asyncForEach` body of setupGame (src/index.js lines 220-278),
planet by planet: push the id onto `knownPlanets`, spin-fetch the detail,
run the zone scan, and — because the scan's `hasBossZone` is consulted at
line 272 — either select this planet (the thrown SalienScriptException
ends the loop and is caught at line 280) or continue with the rest. -/
def runScan (details : String → Nat → List PlanetDetail) (fuel : Nat) :
    Option String → List String → List String → List Planet → SetupResult
  | cur, known, fetched, [] => ⟨.completed, cur, known, fetched⟩
  | cur, known, fetched, p :: rest =>
    let known := known ++ [p.id]
    match spinFetch (details p.id) 0 fuel with
    | none => ⟨.stuck p.id, cur, known, fetched ++ List.replicate fuel p.id⟩
    | some (n, d) =>
      let fetched := fetched ++ List.replicate n p.id
      if (scanPlanet d.zones).hasBossZone then
        ⟨.selected p.id, some p.id, known, fetched⟩
      else
        runScan details fuel cur known fetched rest

/-- `SalienScript.setupGame()` (src/index.js lines 212-288): fetch the
planets; `if (!planets) throw` — note a JS empty array is truthy, so only
an absent list trips this guard — then scan the list in API order. -/
def setupGame (st : ScriptState) (snap : Snapshot) (fuel : Nat) : SetupResult :=
  match snap.planets with
  | none => ⟨.noPlanets, st.currentPlanetId, st.knownPlanets, []⟩
  | some planets => runScan snap.details fuel st.currentPlanetId st.knownPlanets [] planets

/-! ## Helper lemmas about the retry loop -/

theorem string_data_append (s t : String) : (s ++ t).data = s.data ++ t.data := rfl

theorem requestLoop_succ {α : Type} (method : String) (outcomes : Nat → Option α)
    (t rem : Nat) :
    requestLoop method outcomes t (rem + 1) =
      match outcomes t with
      | some r => ⟨.ok r, 1, []⟩
      | none =>
        if rem = 0 then
          ⟨.salienException
            ("Failed " ++ method ++ " after " ++ toString (t + 1) ++ " retries"),
           1, []⟩
        else
          let rest := requestLoop method outcomes (t + 1) rem
          ⟨rest.outcome, rest.attempts + 1, 5000 :: rest.delays⟩ := rfl

theorem requestLoop_all_fail {α : Type} (method : String) (outcomes : Nat → Option α) :
    ∀ (g t : Nat), (∀ i, i < t + (g + 1) → outcomes i = none) →
    requestLoop method outcomes t (g + 1) =
      ⟨.salienException
        ("Failed " ++ method ++ " after " ++ toString (t + g + 1) ++ " retries"),
       g + 1, List.replicate g 5000⟩ := by
  intro g
  induction g with
  | zero =>
    intro t h
    rw [requestLoop_succ, h t (by omega)]
    rfl
  | succ g' ih =>
    intro t h
    rw [requestLoop_succ, h t (by omega)]
    have hrest := ih (t + 1) (fun i hi => h i (by omega))
    simp only [Nat.succ_ne_zero, if_false, hrest]
    have harg : t + 1 + g' + 1 = t + (g' + 1) + 1 := by omega
    rw [harg]
    rfl

theorem requestLoop_ok {α : Type} (method : String) (outcomes : Nat → Option α) (r : α) :
    ∀ (g t : Nat), (∀ i, i + 1 < t + (g + 1) → outcomes i = none) →
    outcomes (t + g) = some r →
    requestLoop method outcomes t (g + 1) = ⟨.ok r, g + 1, List.replicate g 5000⟩ := by
  intro g
  induction g with
  | zero =>
    intro t _ hr
    rw [show t + 0 = t from rfl] at hr
    rw [requestLoop_succ, hr]
    rfl
  | succ g' ih =>
    intro t h hr
    rw [requestLoop_succ, h t (by omega)]
    have hrest := ih (t + 1) (fun i hi => h i (by omega))
      (by rw [show t + 1 + g' = t + (g' + 1) from by omega]; exact hr)
    simp only [Nat.succ_ne_zero, if_false, hrest]
    rfl

/-! ## Claim C3: bounded retry with constant backoff -/

/-- C3: for every retry ceiling N ≥ 1, if the first N−1 attempts throw at
transport level and attempt N returns a decoded body, `RequestAPI`
succeeds after exactly N attempts; if all N attempts throw, it raises
`SalienScriptException` whose message carries the method name and the
attempt count, after exactly N attempts; in both cases a constant 5000 ms
delay separates consecutive attempts (N−1 delays, no exponential
growth). -/
theorem claim3_retry_behavior {α : Type} (N : Nat) (method : String)
    (outcomes : Nat → Option α) (r : α) (hN : 1 ≤ N) :
    ((∀ i, i + 1 < N → outcomes i = none) → outcomes (N - 1) = some r →
      RequestAPI method outcomes N = ⟨.ok r, N, List.replicate (N - 1) 5000⟩) ∧
    ((∀ i, i < N → outcomes i = none) →
      RequestAPI method outcomes N =
        ⟨.salienException ("Failed " ++ method ++ " after " ++ toString N ++ " retries"),
         N, List.replicate (N - 1) 5000⟩) := by
  obtain ⟨g, rfl⟩ : ∃ g, N = g + 1 := ⟨N - 1, (Nat.succ_pred_eq_of_pos hN).symm⟩
  constructor
  · intro hfail hr
    have := requestLoop_ok method outcomes r g 0
      (fun i hi => hfail i (by omega)) (by simpa using hr)
    simpa [RequestAPI] using this
  · intro hfail
    have := requestLoop_all_fail method outcomes g 0 (fun i hi => hfail i (by omega))
    simpa [RequestAPI] using this

/-- Witness for C3 at N = 2: one transport failure then a success gives
`ok` with 2 attempts and one 5000 ms delay; two failures give the
classified exception naming the method and the 2 attempts. -/
theorem claim3_retry_behavior_witness :
    RequestAPI "GetPlanets" (fun i => if i = 1 then some 7 else none) 2 =
      ⟨.ok 7, 2, [5000]⟩ ∧
    RequestAPI "GetPlanets" (fun _ => (none : Option Nat)) 2 =
      ⟨.salienException "Failed GetPlanets after 2 retries", 2, [5000]⟩ := by
  constructor
  · exact (claim3_retry_behavior 2 "GetPlanets" (fun i => if i = 1 then some 7 else none) 7
      (by omega)).1
      (fun i hi => by
        have h0 : i = 0 := by omega
        subst h0
        rfl)
      (by rfl)
  · exact (claim3_retry_behavior 2 "GetPlanets" (fun _ => (none : Option Nat)) 7
      (by omega)).2 (fun i _ => rfl)

/-! ## Claim C10: maxRetries = 0 bypasses the classified failure path -/

/-- C10: called with `maxRetries = 0`, the while-loop guard fails at
once: no fetch attempt is made, no delay is slept, and the call ends with
the unclassified JS `TypeError` from reading `.response` of `undefined`
rather than with a `SalienScriptException`. -/
theorem claim10_zero_retries {α : Type} (method : String) (outcomes : Nat → Option α) :
    RequestAPI method outcomes 0 = ⟨.typeErrorUndefined, 0, []⟩ := rfl

/-! ## Claim C4: query-string construction -/

/-- C4: for every method and non-empty parameter list, the URL is the
base, the method, the `/v0001/?` suffix, then the parameters joined with
`&` and no trailing separator. -/
theorem claim4_url_building (method : String) (ps : List String) (h : ps ≠ []) :
    buildUrl method (some ps) =
      "https://community.steam-api.com/" ++ method ++ "/v0001/?" ++ joinAmp ps := by
  show jsDropLast
      (List.foldl (fun u param => u ++ param ++ "&")
        (("https://community.steam-api.com/" ++ method ++ "/v0001") ++ "/?") ps) = _
  rw [foldl_amp, ampConcat_eq_joinAmp ps h, ← string_append_assoc, jsDropLast_amp]
  have hlit : ("/v0001".data ++ "/?".data : List Char) = "/v0001/?".data := rfl
  exact String.ext (by simp [string_data_append, hlit])

/-- Witness for C4: the spec's own example, parameters
`["id=5", "language=english"]` against method `X`. -/
theorem claim4_url_building_witness :
    buildUrl "X" (some ["id=5", "language=english"]) =
      "https://community.steam-api.com/X/v0001/?id=5&language=english" := by
  rw [claim4_url_building "X" ["id=5", "language=english"] (by simp)]
  rfl

/-! ## Helper lemmas about the zone scan -/

/-- The JS skip condition is equivalent to "captured, or a capture
progress above 0.97 is present" (the truthiness test is redundant because
a progress above 0.97 is nonzero). -/
theorem zoneSkipCheck_iff (z : Zone) :
    zoneSkipCheck z = true ↔
      (z.captured = true ∨ ∃ q, z.capture_progress = some q ∧ q > (0.97 : ℚ)) := by
  cases hcp : z.capture_progress with
  | none => simp [zoneSkipCheck, hcp]
  | some q =>
    simp only [zoneSkipCheck, hcp, Bool.or_eq_true, Bool.and_eq_true, decide_eq_true_eq,
      Option.some.injEq]
    constructor
    · rintro (⟨_, hgt⟩ | hcap)
      · exact Or.inr ⟨q, rfl, hgt⟩
      · exact Or.inl hcap
    · rintro (hcap | ⟨q', hq', hgt⟩)
      · exact Or.inr hcap
      · subst hq'
        exact Or.inl ⟨ne_of_gt (lt_trans (by norm_num) hgt), hgt⟩

theorem scanZone_skip (c : ZoneCounts) (z : Zone) (h : zoneSkipCheck z = true) :
    scanZone c z = c := by
  simp [scanZone, h]

theorem scanZone_elig (c : ZoneCounts) (z : Zone) (h : zoneSkipCheck z = false) (b : Bucket) :
    bucketCount (scanZone c z) b =
      bucketCount c b + (if b = dBucket z.difficulty then 1 else 0) := by
  simp only [scanZone, h, Bool.false_eq_true, if_false, dBucket]
  cases b <;> split_ifs <;> simp_all [bucketCount]

/-! ## Claim C2: near-complete and captured zones are excluded;
eligible zones count in exactly one bucket -/

/-- C2: a zone that is captured or whose capture progress exceeds 0.97
leaves every difficulty bucket and the boss flag untouched, regardless of
its type; an eligible zone increments exactly the one bucket chosen by
its difficulty, leaving the other three buckets unchanged. -/
theorem claim2_eligibility_buckets (c : ZoneCounts) (z : Zone) :
    ((z.captured = true ∨ ∃ q, z.capture_progress = some q ∧ q > (0.97 : ℚ)) →
      scanZone c z = c) ∧
    (¬(z.captured = true ∨ ∃ q, z.capture_progress = some q ∧ q > (0.97 : ℚ)) →
      ∀ b, bucketCount (scanZone c z) b =
        bucketCount c b + (if b = dBucket z.difficulty then 1 else 0)) := by
  constructor
  · intro hskip
    exact scanZone_skip c z ((zoneSkipCheck_iff z).mpr hskip)
  · intro helig b
    have hsf : zoneSkipCheck z = false := by
      cases hsc : zoneSkipCheck z with
      | false => rfl
      | true => exact absurd ((zoneSkipCheck_iff z).mp hsc) helig
    exact scanZone_elig c z hsf b

/-- Witness for C2: a captured zone is a no-op on concrete counters; an
eligible medium zone bumps exactly the medium bucket. -/
theorem claim2_eligibility_buckets_witness :
    scanZone ⟨1, 2, 3, 4, false⟩ ⟨4, 3, none, true⟩ = ⟨1, 2, 3, 4, false⟩ ∧
    bucketCount (scanZone ⟨1, 2, 3, 4, false⟩ ⟨3, 2, some (1/2), false⟩) .medium = 3 := by
  constructor
  · exact (claim2_eligibility_buckets ⟨1, 2, 3, 4, false⟩ ⟨4, 3, none, true⟩).1 (Or.inl rfl)
  · have h := (claim2_eligibility_buckets ⟨1, 2, 3, 4, false⟩ ⟨3, 2, some (1/2), false⟩).2
      (by
        rintro (hcap | ⟨q, hq, hgt⟩)
        · exact Bool.false_ne_true hcap
        · rw [show Zone.capture_progress ⟨3, 2, some (1/2), false⟩ = some (1/2) from rfl,
            Option.some.injEq] at hq
          rw [← hq] at hgt
          norm_num at hgt)
      .medium
    rw [h]
    rfl

/-! ## Helper lemmas about the selection pass -/

/-- `scanZone` never clears the boss flag: every branch either leaves the
record unchanged, sets the flag to `true`, or copies it. -/
theorem scanZone_boss (c : ZoneCounts) (z : Zone) (h : c.hasBossZone = true) :
    (scanZone c z).hasBossZone = true := by
  simp only [scanZone]
  split_ifs <;> simp_all

/-- Since the source initialises `hasBossZone = true` (line 230) and no
branch clears it, the scan of any zone list reports a boss zone. -/
theorem scanPlanet_boss (zs : List Zone) : (scanPlanet zs).hasBossZone = true := by
  suffices h : ∀ c : ZoneCounts, c.hasBossZone = true →
      (zs.foldl scanZone c).hasBossZone = true from h initCounts rfl
  induction zs with
  | nil => exact fun c hc => hc
  | cons z rest ih => exact fun c hc => ih (scanZone c z) (scanZone_boss c z hc)

theorem spinFetch_succ (seq : Nat → List PlanetDetail) (s f : Nat) :
    spinFetch seq s (f + 1) =
      match (seq s).head? with
      | some d => some (s + 1, d)
      | none => spinFetch seq (s + 1) f := rfl

/-- The spin loop returns the first fetch whose `planets` array is
non-empty, counting every fetch made on the way. -/
theorem spinFetch_firstSome (seq : Nat → List PlanetDetail) (d : PlanetDetail) :
    ∀ (k s fuel : Nat), (∀ j, j < k → seq (s + j) = []) →
      (seq (s + k)).head? = some d → k < fuel →
      spinFetch seq s fuel = some (s + k + 1, d) := by
  intro k
  induction k with
  | zero =>
    intro s fuel _ hk hfuel
    obtain ⟨f, rfl⟩ : ∃ f, fuel = f + 1 := ⟨fuel - 1, by omega⟩
    rw [show s + 0 = s from rfl] at hk
    rw [spinFetch_succ, hk]
  | succ k' ih =>
    intro s fuel h hk hfuel
    obtain ⟨f, rfl⟩ : ∃ f, fuel = f + 1 := ⟨fuel - 1, by omega⟩
    rw [spinFetch_succ, show seq s = [] from by simpa using h 0 (by omega)]
    show spinFetch seq (s + 1) f = some (s + (k' + 1) + 1, d)
    have hrec := ih (s + 1) f
      (fun j hj => by
        rw [show s + 1 + j = s + (j + 1) from by omega]
        exact h (j + 1) (by omega))
      (by rw [show s + 1 + k' = s + (k' + 1) from by omega]; exact hk)
      (by omega)
    rw [hrec, show s + 1 + k' + 1 = s + (k' + 1) + 1 from by omega]

theorem runScan_nil (details : String → Nat → List PlanetDetail) (fuel : Nat)
    (cur : Option String) (known fetched : List String) :
    runScan details fuel cur known fetched [] = ⟨.completed, cur, known, fetched⟩ := rfl

theorem runScan_cons (details : String → Nat → List PlanetDetail) (fuel : Nat)
    (cur : Option String) (known fetched : List String) (p : Planet) (rest : List Planet) :
    runScan details fuel cur known fetched (p :: rest) =
      match spinFetch (details p.id) 0 fuel with
      | none => ⟨.stuck p.id, cur, known ++ [p.id], fetched ++ List.replicate fuel p.id⟩
      | some (n, d) =>
        if (scanPlanet d.zones).hasBossZone then
          ⟨.selected p.id, some p.id, known ++ [p.id], fetched ++ List.replicate n p.id⟩
        else
          runScan details fuel cur (known ++ [p.id]) (fetched ++ List.replicate n p.id) rest
    := rfl

/-- The outcome of a scan does not depend on the accumulator state it
starts from: the loop writes `currentPlanetId` and `knownPlanets` but
never reads them. -/
theorem runScan_outcome (details : String → Nat → List PlanetDetail) (fuel : Nat) :
    ∀ (ps : List Planet) (cur cur' : Option String) (known known' fetched fetched' : List String),
      (runScan details fuel cur known fetched ps).outcome =
        (runScan details fuel cur' known' fetched' ps).outcome := by
  intro ps
  induction ps with
  | nil => intro _ _ _ _ _ _; rfl
  | cons p rest ih =>
    intro cur cur' known known' fetched fetched'
    rw [runScan_cons, runScan_cons]
    rcases spinFetch (details p.id) 0 fuel with _ | ⟨n, d⟩
    · rfl
    · by_cases hboss : (scanPlanet d.zones).hasBossZone = true
      · simp only [hboss, if_true]
      · simp only [hboss, Bool.false_eq_true, if_false]
        exact ih cur cur' _ _ _ _

/-- The scan appends exactly the ids of the prefix of planets it
processed to `knownPlanets`, in encounter order, and every GetPlanet
fetch it issued targeted a planet of that prefix. -/
theorem runScan_known (details : String → Nat → List PlanetDetail) (fuel : Nat) :
    ∀ (ps : List Planet) (cur : Option String) (known fetched : List String),
      ∃ k, k ≤ ps.length ∧
        (runScan details fuel cur known fetched ps).knownPlanets =
          known ++ (ps.take k).map Planet.id ∧
        ∃ extra, (runScan details fuel cur known fetched ps).fetched = fetched ++ extra ∧
          ∀ x ∈ extra, x ∈ (ps.take k).map Planet.id := by
  intro ps
  induction ps with
  | nil =>
    intro cur known fetched
    exact ⟨0, Nat.zero_le _, by simp [runScan_nil], [], by simp [runScan_nil], by simp⟩
  | cons p rest ih =>
    intro cur known fetched
    rw [runScan_cons]
    rcases spinFetch (details p.id) 0 fuel with _ | ⟨n, d⟩
    · refine ⟨1, by simp, by simp, List.replicate fuel p.id, rfl, ?_⟩
      intro x hx
      simp [List.eq_of_mem_replicate hx]
    · by_cases hboss : (scanPlanet d.zones).hasBossZone = true
      · simp only [hboss, if_true]
        refine ⟨1, by simp, by simp, List.replicate n p.id, rfl, ?_⟩
        intro x hx
        simp [List.eq_of_mem_replicate hx]
      · simp only [hboss, Bool.false_eq_true, if_false]
        obtain ⟨k, hk, hkn, extra, hf, hmem⟩ :=
          ih cur (known ++ [p.id]) (fetched ++ List.replicate n p.id)
        refine ⟨k + 1, by simpa using Nat.succ_le_succ hk, ?_,
          List.replicate n p.id ++ extra, ?_, ?_⟩
        · rw [hkn, List.take_succ_cons, List.map_cons, List.append_assoc]
          rfl
        · rw [hf, List.append_assoc]
        · intro x hx
          rcases List.mem_append.mp hx with hx | hx
          · simp [List.eq_of_mem_replicate hx, List.take_succ_cons]
          · rw [List.take_succ_cons, List.map_cons]
            exact List.mem_cons_of_mem _ (hmem x hx)

/-! ## Claim C9: the boss flag starts true and is never cleared, so the
first planet whose detail fetch yields a planet object is always
selected -/

/-- C9: `hasBossZone` starts as `true` (line 230) and no branch ever sets
it to `false`, so every zone scan reports a boss zone; consequently for
every non-empty planets list whose first planet's detail fetch returns a
planet object, the pass selects that first planet (sets
`currentPlanetId` to its id and terminates), regardless of whether any
type-4 zone exists anywhere. -/
theorem claim9_boss_flag_always_true :
    (∀ zs : List Zone, (scanPlanet zs).hasBossZone = true) ∧
    ∀ (st : ScriptState) (details : String → Nat → List PlanetDetail)
      (fuel n : Nat) (d : PlanetDetail) (p : Planet) (rest : List Planet),
      spinFetch (details p.id) 0 fuel = some (n, d) →
      (setupGame st ⟨some (p :: rest), details⟩ fuel).outcome = .selected p.id ∧
      (setupGame st ⟨some (p :: rest), details⟩ fuel).currentPlanetId = some p.id := by
  refine ⟨scanPlanet_boss, ?_⟩
  intro st details fuel n d p rest hspin
  show (runScan details fuel st.currentPlanetId st.knownPlanets [] (p :: rest)).outcome = _ ∧
    (runScan details fuel st.currentPlanetId st.knownPlanets [] (p :: rest)).currentPlanetId = _
  rw [runScan_cons, hspin]
  simp [scanPlanet_boss]

/-- Witness for C9: a single planet whose detail carries an empty zone
list — no type-4 zone exists anywhere — is still selected. -/
theorem claim9_boss_flag_always_true_witness :
    (scanPlanet []).hasBossZone = true ∧
    (setupGame initialState ⟨some [⟨"A"⟩], fun _ _ => [⟨[]⟩]⟩ 1).outcome = .selected "A" := by
  refine ⟨claim9_boss_flag_always_true.1 [], ?_⟩
  exact (claim9_boss_flag_always_true.2 initialState (fun _ _ => [⟨[]⟩]) 1 1 ⟨[]⟩ ⟨"A"⟩ [] rfl).1

/-! ## Claim C1: selection is supposed to pick the first planet with an
eligible boss zone — refuted, the code always picks the first planet -/

/-- C1 (the claim is refuted by the code; this evaluates the code at the
failing input): planet `A`'s only eligible zone has type 3 (no boss
zone), planet `B` has an eligible type-4 boss zone, yet the pass selects
`A` — because `hasBossZone` is initialised `true` and never cleared — and
never fetches `B`'s detail (`fetched = ["A"]`). The claim requires `B` to
be chosen. -/
theorem claim1_failing_input_eval :
    setupGame initialState
      ⟨some [⟨"A"⟩, ⟨"B"⟩],
       fun i _ => if i = "A" then [⟨[⟨3, 3, some 0, false⟩]⟩] else [⟨[⟨4, 3, some 0, false⟩]⟩]⟩
      1 =
      ⟨.selected "A", some "A", ["A"], ["A"]⟩ := by decide

/-! ## Claim C5: the "no planets" guard -/

/-- C5 counterexample: with a present-but-empty planets list the pass
does not raise the "no planets" exception — the JS guard `!planets` is
false for an empty array — the scan runs over zero planets and completes
with no selection. -/
theorem claim5_counterexample :
    setupGame initialState ⟨some [], fun _ _ => []⟩ 1 = ⟨.completed, none, [], []⟩ ∧
    SetupOutcome.completed ≠ SetupOutcome.noPlanets := ⟨rfl, by decide⟩

/-- C5 amended: the pass throws the terminal "no planets" exception,
before any planet detail is fetched, exactly when the planets list is
absent (falsy); an empty list passes the guard, and the pass then also
fetches no planet detail but completes without a selection instead of
throwing. -/
theorem claim5_no_planets_guard (st : ScriptState)
    (details : String → Nat → List PlanetDetail) (fuel : Nat) :
    setupGame st ⟨none, details⟩ fuel =
      ⟨.noPlanets, st.currentPlanetId, st.knownPlanets, []⟩ ∧
    setupGame st ⟨some [], details⟩ fuel =
      ⟨.completed, st.currentPlanetId, st.knownPlanets, []⟩ :=
  ⟨rfl, rfl⟩

/-! ## Claim C6: the per-planet spin-retry -/

/-- C6 counterexample: the spin-retry stops at the first payload whose
`planets` array is non-empty even when the zone list it carries is empty:
here fetch 0 returns a planet object with an empty zone list and every
later fetch would carry a non-empty zone list, yet exactly one fetch
happens (`fetched = ["A"]`) — the fetch is not repeated until a payload
with a non-empty zone list is obtained. -/
theorem claim6_counterexample :
    setupGame initialState
      ⟨some [⟨"A"⟩], fun _ k => if k = 0 then [⟨[]⟩] else [⟨[⟨3, 1, some 0, false⟩]⟩]⟩ 5 =
      ⟨.selected "A", some "A", ["A"], ["A"]⟩ := by decide

/-- C6 amended: the per-planet detail fetch is repeated exactly until a
payload whose `planets` array is non-empty is obtained (the zone list of
that payload may itself be empty); the planet is then processed from that
first non-empty payload, so a planet whose payload is non-empty only
after k transient empty fetches is still scanned correctly, with k+1
fetches recorded. -/
theorem claim6_spin_retry (seq : Nat → List PlanetDetail) (d : PlanetDetail)
    (k fuel : Nat) (hempty : ∀ j, j < k → seq j = [])
    (hk : (seq k).head? = some d) (hfuel : k < fuel) :
    spinFetch seq 0 fuel = some (k + 1, d) ∧
    ∀ (st : ScriptState) (p : Planet),
      setupGame st ⟨some [p], fun _ => seq⟩ fuel =
        ⟨.selected p.id, some p.id, st.knownPlanets ++ [p.id], List.replicate (k + 1) p.id⟩ := by
  have hspin : spinFetch seq 0 fuel = some (k + 1, d) := by
    have h := spinFetch_firstSome seq d k 0 fuel
      (fun j hj => by simpa using hempty j hj) (by simpa using hk) hfuel
    simpa using h
  refine ⟨hspin, ?_⟩
  intro st p
  show runScan (fun _ => seq) fuel st.currentPlanetId st.knownPlanets [] [p] = _
  rw [runScan_cons, hspin]
  simp [scanPlanet_boss]

/-- Witness for C6: one transient empty fetch, then a payload carrying an
easy zone; the planet is scanned from that payload after 2 fetches. -/
theorem claim6_spin_retry_witness :
    spinFetch (fun k => if k = 0 then [] else [⟨[⟨3, 1, some 0, false⟩]⟩]) 0 3 =
      some (2, ⟨[⟨3, 1, some 0, false⟩]⟩) ∧
    setupGame initialState
      ⟨some [⟨"A"⟩], fun _ k => if k = 0 then [] else [⟨[⟨3, 1, some 0, false⟩]⟩]⟩ 3 =
      ⟨.selected "A", some "A", ["A"], ["A", "A"]⟩ := by
  have h := claim6_spin_retry (fun k => if k = 0 then [] else [⟨[⟨3, 1, some 0, false⟩]⟩])
    ⟨[⟨3, 1, some 0, false⟩]⟩ 1 3
    (fun j hj => by
      have h0 : j = 0 := by omega
      subst h0
      rfl)
    rfl (by omega)
  exact ⟨h.1, h.2 initialState ⟨"A"⟩⟩

/-! ## Claim C7: KnownPlanets accumulates scanned ids in order -/

/-- C7: during one pass `knownPlanets` is append-only — the final list is
the initial one extended with exactly the ids of the prefix of planets
that was scanned, in encounter order (whether the pass ended by selection
or by exhausting the list) — and every planet detail fetched belongs to
that scanned prefix. -/
theorem claim7_known_planets (st : ScriptState) (snap : Snapshot) (fuel : Nat)
    (planets : List Planet) (h : snap.planets = some planets) :
    ∃ k, k ≤ planets.length ∧
      (setupGame st snap fuel).knownPlanets =
        st.knownPlanets ++ (planets.take k).map Planet.id ∧
      ∀ x ∈ (setupGame st snap fuel).fetched, x ∈ (planets.take k).map Planet.id := by
  obtain ⟨plo, det⟩ := snap
  have h' : plo = some planets := h
  subst h'
  obtain ⟨k, hk, hkn, extra, hf, hmem⟩ :=
    runScan_known det fuel planets st.currentPlanetId st.knownPlanets []
  refine ⟨k, hk, hkn, ?_⟩
  intro x hx
  apply hmem
  have hx' : x ∈ ([] : List String) ++ extra := hf ▸ hx
  simpa using hx'

/-- Witness for C7 at a concrete two-planet snapshot whose first planet
is selected at once. -/
theorem claim7_known_planets_witness :
    ∃ k, k ≤ 2 ∧
      (setupGame initialState ⟨some [⟨"A"⟩, ⟨"B"⟩], fun _ _ => [⟨[]⟩]⟩ 1).knownPlanets =
        [] ++ (([⟨"A"⟩, ⟨"B"⟩] : List Planet).take k).map Planet.id ∧
      ∀ x ∈ (setupGame initialState ⟨some [⟨"A"⟩, ⟨"B"⟩], fun _ _ => [⟨[]⟩]⟩ 1).fetched,
        x ∈ (([⟨"A"⟩, ⟨"B"⟩] : List Planet).take k).map Planet.id :=
  claim7_known_planets initialState ⟨some [⟨"A"⟩, ⟨"B"⟩], fun _ _ => [⟨[]⟩]⟩ 1
    [⟨"A"⟩, ⟨"B"⟩] rfl

/-! ## Claim C8: the selection is a deterministic function of the
snapshot -/

/-- C8: the outcome of a selection pass — in particular which planet id
it selects — depends only on the API snapshot, not on the instance state
the pass starts from; hence re-running the pass against an unchanged
snapshot, starting from the state the first run left behind, reports the
same outcome (and so the same chosen planet id). -/
theorem claim8_idempotent_selection (snap : Snapshot) (fuel : Nat) :
    (∀ st₁ st₂ : ScriptState,
      (setupGame st₁ snap fuel).outcome = (setupGame st₂ snap fuel).outcome) ∧
    (∀ st : ScriptState,
      (setupGame ⟨(setupGame st snap fuel).currentPlanetId,
        (setupGame st snap fuel).knownPlanets⟩ snap fuel).outcome =
      (setupGame st snap fuel).outcome) := by
  have hmain : ∀ st₁ st₂ : ScriptState,
      (setupGame st₁ snap fuel).outcome = (setupGame st₂ snap fuel).outcome := by
    intro st₁ st₂
    obtain ⟨plo, det⟩ := snap
    cases plo with
    | none => rfl
    | some planets => exact runScan_outcome det fuel planets _ _ _ _ _ _
  exact ⟨hmain, fun st => hmain _ st⟩

end Salien
